import Mathlib

/-!
Shallow embedding of the core of the short-url-service repository
(packages `pkg/shorturl` and `pkg/metrics`), together with proofs of the
specification claims about it.

Conventions of the embedding:
* Go byte strings (long URLs) are `List Nat` of byte values; generated
  identifiers are `List Char`; metrics keys are Lean `String`s.
* 64-bit unsigned arithmetic is `Nat` arithmetic reduced modulo `2 ^ 64`
  exactly where the Go `uint`/`uint64` operations wrap.
* Fallible collaborator calls (Storage, Cache) are modelled either by a
  pure in-memory state (association lists, matching the observable
  behaviour of the SQL/Redis implementations) or by explicit response
  values passed as arguments; every Manager operation additionally
  returns the list of collaborator operations it performed, so that
  claims about "no store write happens" or about probe order are
  statable.
-/

namespace ShortURL

/-- The fixed 62-symbol alphabet `0-9 a-z A-Z` (`charset` in `manager.go`). -/
def charset : List Char :=
  "0123456789abcdefghijklmnopqrstuvwxyzABCDEFGHIJKLMNOPQRSTUVWXYZ".toList

/-- `base = uint64(len(charset))` from `manager.go`. -/
def base : Nat := charset.length

/-- `shortURLIdLength` from `manager.go`. -/
def shortURLIdLength : Nat := 6

/-- `2 ^ 64`, the wraparound modulus of Go `uint`/`uint64` arithmetic. -/
def two64 : Nat := 2 ^ 64

/-- FNV-1a 64-bit offset basis (Go `hash/fnv`). -/
def fnvOffsetBasis : Nat := 14695981039346656037

/-- FNV-1a 64-bit prime (Go `hash/fnv`). -/
def fnvPrime : Nat := 1099511628211

/-- One step of the FNV-1a 64-bit hash: xor in the byte, multiply by the
prime, wrapping at `2 ^ 64` (Go `hash/fnv` `sum64a.Write`). -/
def fnv1aStep (h b : Nat) : Nat := ((h ^^^ b) * fnvPrime) % two64

/-- The FNV-1a 64-bit hash of a byte string (Go `fnv.New64a` followed by
`Write` of all bytes and `Sum64`). -/
def fnv1a (bs : List Nat) : Nat := bs.foldl fnv1aStep fnvOffsetBasis

/-- `h.Write([]byte(longURL))` of `GenerateIdWithOffset`.  Go's
`hash/fnv` hashes never return an error from `Write` (the `hash.Hash`
contract states `Write` never errors, and `sum64a.Write` returns
`len(data), nil` unconditionally), so the embedding always succeeds;
the unused error component keeps the caller's error branch
representable. -/
def fnvWrite (bs : List Nat) : Except String Nat := Except.ok (fnv1a bs)

/-- The base-62 digit-extraction loop of `GenerateIdWithOffset`:
`n` iterations of `id.WriteByte(charset[hashValue%base]); hashValue /= base`.
The head of the resulting list is the least-significant digit, exactly as
the Go loop appends it first. -/
def encodeDigits : Nat → Nat → List Char
  | 0, _ => []
  | n + 1, v => charset.getD (v % base) ' ' :: encodeDigits n (v / base)

/-- `quadraticOffset := (offset + (offset * offset)) / 2` computed in Go
`uint` (64-bit wraparound) arithmetic. -/
def quadraticOffset (offset : Nat) : Nat := ((offset + offset * offset) % two64) / 2

/-- `GenerateIdWithOffset` from `manager.go`: FNV-1a hash of the long
URL, plus the quadratic probe (wrapping at `2 ^ 64`), then the six
least-significant base-62 digits. -/
def GenerateIdWithOffset (longURL : List Nat) (offset : Nat) : Except String (List Char) :=
  match fnvWrite longURL with
  | Except.error e => Except.error ("failed to hash long URL: " ++ e)
  | Except.ok hashValue =>
      Except.ok (encodeDigits shortURLIdLength ((hashValue + quadraticOffset offset) % two64))

/-- The identifier `GenerateIdWithOffset` produces (it always succeeds). -/
def genId (longURL : List Nat) (offset : Nat) : List Char :=
  encodeDigits shortURLIdLength ((fnv1a longURL + quadraticOffset offset) % two64)

/-- The identifier described by the specification's words: digit `i` of
the result is `charset[(h + probe) / 62^i mod 62]` where `h` is the
FNV-1a hash and `probe = (o + o·o)/2` in 64-bit wraparound arithmetic. -/
def specGenerate (u : List Nat) (o : Nat) : List Char :=
  (List.range 6).map fun i =>
    charset.getD ((fnv1a u + (o + o * o) % two64 / 2) % two64 / 62 ^ i % 62) ' '

/-! ### The LinkDirectory (Manager of `pkg/shorturl/manager.go`) -/

/-- Association-list lookup, the observable behaviour of a keyed map. -/
def alistGet {α β : Type} [DecidableEq α] : List (α × β) → α → Option β
  | [], _ => none
  | (k, v) :: rest, key => if k = key then some v else alistGet rest key

/-- Association-list insertion/overwrite (Go map assignment). -/
def alistSet {α β : Type} [DecidableEq α] : List (α × β) → α → β → List (α × β)
  | [], key, v => [(key, v)]
  | (k, w) :: rest, key, v =>
      if k = key then (key, v) :: rest else (k, w) :: alistSet rest key v

/-- Association-list deletion (SQL `DELETE WHERE id = ...` / Redis `DEL`). -/
def alistDelete {α β : Type} [DecidableEq α] : List (α × β) → α → List (α × β)
  | [], _ => []
  | (k, v) :: rest, key =>
      if k = key then alistDelete rest key else (k, v) :: alistDelete rest key

/-- Persistent store state: identifier to long URL. -/
abbrev Store := List (List Char × List Nat)

/-- `Storage.GetLongURL`: the stored long URL for an id, when present. -/
def storeGetLongURL (store : Store) (id : List Char) : Option (List Nat) :=
  alistGet store id

/-- `Storage.CreateShortURL`: insert a new row. -/
def storeCreateShortURL (store : Store) (id : List Char) (longURL : List Nat) : Store :=
  (id, longURL) :: store

/-- The error identities of `pkg/shorturl` (`errors.go` sentinels plus the
distinct non-sentinel errors `manager.go` constructs with `fmt.Errorf`). -/
inductive Err
  | invalidInput
  | notFound
  | alreadyExists
  | generationExhausted
  | emptyLongURL
  | hashFailure
  | storeFailure
  | cacheFailure
deriving DecidableEq

/-- A collaborator operation performed by a Manager method; Manager
operations return the list of these they executed, in order. -/
inductive Eff
  | storeGet (id : List Char)
  | storeCreate (id : List Char) (longURL : List Nat)
  | storeDelete (id : List Char)
  | cacheGet (id : List Char)
  | cacheSet (id : List Char) (value : List Nat)
  | cacheDelete (id : List Char)
deriving DecidableEq

/-- The byte string `"https://"`. -/
def schemeBytes : List Nat := [104, 116, 116, 112, 115, 58, 47, 47]

/-- `validateLongURL` from `manager.go`: non-empty and scheme check,
returning the error message when invalid (`strings.HasPrefix(u, p)` is
`u.take p.length = p`). -/
def validateLongURL (longURL : List Nat) : Option String :=
  if longURL = [] then some "long URL cannot be empty"
  else if longURL.take 8 ≠ schemeBytes then some "long URLs must start with the https scheme"
  else none

/-- The retry loop body of `GenerateShortURLId`, recursing on the number
of retries still allowed (`fuel = maxRetries - offset`).  Result:
(identifier, error, store operations performed).  Go returns the pair
`(id, err)`; `err = some .alreadyExists` is the `ErrShortURLExists`
return that carries the existing id. -/
def genLoop (store : Store) (longURL : List Nat) : Nat → Nat → List Char × Option Err × List Eff
  | _, 0 => ([], some Err.generationExhausted, [])
  | offset, fuel + 1 =>
      match GenerateIdWithOffset longURL offset with
      | Except.error _ => ([], some Err.hashFailure, [])
      | Except.ok id =>
          match storeGetLongURL store id with
          | none => (id, none, [Eff.storeGet id])
          | some stored =>
              if stored = longURL then (id, some Err.alreadyExists, [Eff.storeGet id])
              else
                let r := genLoop store longURL (offset + 1) fuel
                (r.1, r.2.1, Eff.storeGet id :: r.2.2)

/-- The store lookups the probe loop performs when it starts at offset
`off` and examines `n` consecutive candidates. -/
def probeEffs (u : List Nat) : Nat → Nat → List Eff
  | _, 0 => []
  | off, n + 1 => Eff.storeGet (genId u off) :: probeEffs u (off + 1) n

/-- `GenerateShortURLId` from `manager.go`: empty-input guard, then the
probe loop over offsets `0 .. maxRetries-1`. -/
def GenerateShortURLId (store : Store) (longURL : List Nat) (maxRetries : Nat) :
    List Char × Option Err × List Eff :=
  if longURL = [] then ([], some Err.emptyLongURL, [])
  else genLoop store longURL 0 maxRetries

/-- `CreateShortURL` from `manager.go`: validation, id generation,
then the store insert; `ErrShortURLExists` from generation is consumed
and turned into a successful return of the existing id.  Result:
(outcome, resulting store, collaborator operations performed). -/
def CreateShortURL (store : Store) (longURL : List Nat) (maxRetries : Nat) :
    Except Err (List Char) × Store × List Eff :=
  match validateLongURL longURL with
  | some _ => (Except.error Err.invalidInput, store, [])
  | none =>
      let g := GenerateShortURLId store longURL maxRetries
      match g.2.1 with
      | some Err.alreadyExists => (Except.ok g.1, store, g.2.2)
      | some e => (Except.error e, store, g.2.2)
      | none =>
          (Except.ok g.1, storeCreateShortURL store g.1 longURL,
            g.2.2 ++ [Eff.storeCreate g.1 longURL])

/-- A `(value, found, error)` response of a repository lookup
(`Cache.Get` of `internal/cache/cache.go`, `Storage.GetLongURL` of
`internal/storage/storage.go`); both implementations return exactly one
of: a hit, a clean miss (`redis.Nil` / no row), or a failure. -/
inductive LookupResp
  | found (value : List Nat)
  | missing
  | failure (msg : String)
deriving DecidableEq

/-- `GetLongURL` from `manager.go`: cache first (a cache error is logged
and control falls through to the `found` check, i.e. it degrades to a
miss), then the store; a store hit schedules the detached cache fill and
returns the value. -/
def GetLongURL (id : List Char) (cacheResp storeResp : LookupResp) :
    Except Err (List Nat) × List Eff :=
  match cacheResp with
  | LookupResp.found v => (Except.ok v, [Eff.cacheGet id])
  | _ =>
      match storeResp with
      | LookupResp.failure _ => (Except.error Err.storeFailure, [Eff.cacheGet id, Eff.storeGet id])
      | LookupResp.missing => (Except.error Err.notFound, [Eff.cacheGet id, Eff.storeGet id])
      | LookupResp.found v =>
          (Except.ok v, [Eff.cacheGet id, Eff.storeGet id, Eff.cacheSet id v])

/-- Cache state: key to cached long URL. -/
abbrev CacheMap := List (List Char × List Nat)

/-- `DeleteShortURL` from `manager.go`: empty-id guard, store delete
first (a failure aborts before any cache call), then cache delete (a
failure is still reported even though the store row is already gone).
`storeOk`/`cacheOk` say whether the respective collaborator call
succeeds.  Result: (outcome, resulting store, resulting cache,
collaborator operations performed). -/
def DeleteShortURL (store : Store) (cache : CacheMap) (id : List Char)
    (storeOk cacheOk : Bool) :
    Except Err Unit × Store × CacheMap × List Eff :=
  if id = [] then (Except.error Err.invalidInput, store, cache, [])
  else if storeOk = false then
    (Except.error Err.storeFailure, store, cache, [Eff.storeDelete id])
  else if cacheOk = false then
    (Except.error Err.cacheFailure, alistDelete store id, cache,
      [Eff.storeDelete id, Eff.cacheDelete id])
  else
    (Except.ok (), alistDelete store id, alistDelete cache id,
      [Eff.storeDelete id, Eff.cacheDelete id])

/-! ### The MetricsAggregator (`pkg/metrics`) -/

/-- `Collector` from `pkg/metrics/models.go`; the Go visitor set
`map[string]struct{}` is a duplicate-free list of keys. -/
structure Collector where
  shortURLId : String
  visits : Nat
  visitors : List String
deriving DecidableEq

/-- `Collector.UniqueVisits`: the size of the visitor set. -/
def Collector.uniqueVisits (c : Collector) : Nat := c.visitors.length

/-- `Request` from `pkg/metrics/models.go`. -/
structure Request where
  shortURLId : String
  visitorId : String
deriving DecidableEq

/-- The in-memory collectors map of the metrics `Manager`. -/
abbrev Collectors := List (String × Collector)

/-- Go `m.Visitors[key] = struct{}{}`: set insertion. -/
def insertVisitor (vs : List String) (key : String) : List String :=
  if key ∈ vs then vs else vs ++ [key]

/-- `processRequest` from `pkg/metrics/manager.go`: lazily create the
collector with one visit and one visitor, or bump the existing one. -/
def processRequest (cs : Collectors) (r : Request) : Collectors :=
  match alistGet cs r.shortURLId with
  | none => alistSet cs r.shortURLId ⟨r.shortURLId, 1, [r.visitorId]⟩
  | some c =>
      alistSet cs r.shortURLId
        { c with visits := c.visits + 1, visitors := insertVisitor c.visitors r.visitorId }

/-- `flushMetrics` from `pkg/metrics/manager.go`: submit the whole map
to `Storage.CreateMetrics` in one call (whose outcome is `storeResp`),
log an error on failure, and clear the map unconditionally.  Result:
(collectors map afterwards, the map submitted, logged error). -/
def flushMetrics (cs : Collectors) (storeResp : Except String Unit) :
    Collectors × Collectors × Option String :=
  ([], cs,
    match storeResp with
    | Except.error e => some ("creating metrics in storage: " ++ e)
    | Except.ok _ => none)

/-- Process a list of visit events in order. -/
def runEvents (cs : Collectors) (rs : List Request) : Collectors :=
  rs.foldl processRequest cs

/-- The collectors-map states reachable from the empty map by processed
events and flushes. -/
inductive Reachable : Collectors → Prop
  | empty : Reachable []
  | step (cs : Collectors) (r : Request) : Reachable cs → Reachable (processRequest cs r)
  | flush (cs : Collectors) (resp : Except String Unit) :
      Reachable cs → Reachable (flushMetrics cs resp).1

/-- The per-collector invariant: the visit count dominates the number of
distinct visitors. -/
def CollectorInv (cs : Collectors) : Prop :=
  ∀ e ∈ cs, e.2.visitors.length ≤ e.2.visits

/-! ### Helper lemmas -/

theorem base_eq : base = 62 := rfl

theorem charset_getD_mem : ∀ j, j < 62 → charset.getD j ' ' ∈ charset := by decide

theorem charset_getD_mod_mem (k : Nat) : charset.getD (k % 62) ' ' ∈ charset :=
  charset_getD_mem (k % 62) (Nat.mod_lt _ (by decide))

theorem encodeDigits_length (n : Nat) : ∀ v, (encodeDigits n v).length = n := by
  induction n with
  | zero => intro v; rfl
  | succ n ih => intro v; simp [encodeDigits, ih]

theorem encodeDigits_eq_map (n : Nat) :
    ∀ v, encodeDigits n v = (List.range n).map fun i => charset.getD (v / 62 ^ i % 62) ' ' := by
  induction n with
  | zero => intro v; rfl
  | succ n ih =>
      intro v
      rw [List.range_succ_eq_map]
      simp only [encodeDigits, List.map_cons, List.map_map]
      congr 1
      · simp [base_eq]
      · rw [ih (v / base)]
        refine List.map_congr_left fun i _ => ?_
        have hdd : v / base / 62 ^ i = v / 62 ^ (i + 1) := by
          rw [base_eq, Nat.div_div_eq_div_mul, pow_succ]
          ring_nf
        simp [Function.comp, hdd]

theorem generateIdWithOffset_eq (u : List Nat) (o : Nat) :
    GenerateIdWithOffset u o = Except.ok (genId u o) := rfl

theorem specGenerate_eq_genId (u : List Nat) (o : Nat) : specGenerate u o = genId u o := by
  rw [specGenerate, genId, encodeDigits_eq_map]
  rfl

theorem genLoop_succ (store : Store) (u : List Nat) (off fuel : Nat) :
    genLoop store u off (fuel + 1) =
      match storeGetLongURL store (genId u off) with
      | none => (genId u off, none, [Eff.storeGet (genId u off)])
      | some stored =>
          if stored = u then (genId u off, some Err.alreadyExists, [Eff.storeGet (genId u off)])
          else
            let r := genLoop store u (off + 1) fuel
            (r.1, r.2.1, Eff.storeGet (genId u off) :: r.2.2) := rfl

theorem genLoop_exhausted (store : Store) (u : List Nat) :
    ∀ fuel off,
      (∀ i, off ≤ i → i < off + fuel →
        ∃ v, storeGetLongURL store (genId u i) = some v ∧ v ≠ u) →
      genLoop store u off fuel = ([], some Err.generationExhausted, probeEffs u off fuel) := by
  intro fuel
  induction fuel with
  | zero => intro off _; rfl
  | succ fuel ih =>
      intro off h
      obtain ⟨v, hv, hne⟩ := h off (Nat.le_refl off) (by omega)
      rw [genLoop_succ, hv]
      simp only [if_neg hne]
      rw [ih (off + 1) fun i h1 h2 => h i (by omega) (by omega)]
      rfl

theorem genLoop_found (store : Store) (u : List Nat) (o : Nat) :
    ∀ fuel off, off ≤ o → o < off + fuel →
      storeGetLongURL store (genId u o) = some u →
      (∀ i, off ≤ i → i < o →
        ∃ v, storeGetLongURL store (genId u i) = some v ∧ v ≠ u) →
      genLoop store u off fuel =
        (genId u o, some Err.alreadyExists, probeEffs u off (o - off + 1)) := by
  intro fuel
  induction fuel with
  | zero => intro off h1 h2 _ _; omega
  | succ fuel ih =>
      intro off h1 h2 hsame hdiff
      rcases Nat.eq_or_lt_of_le h1 with heq | hlt
      · subst heq
        rw [genLoop_succ, hsame]
        simp [probeEffs]
      · obtain ⟨v, hv, hne⟩ := hdiff off (Nat.le_refl off) hlt
        rw [genLoop_succ, hv]
        simp only [if_neg hne]
        rw [ih (off + 1) (by omega) (by omega) hsame
          fun i ha hb => hdiff i (by omega) hb]
        have harith : o - off + 1 = (o - (off + 1) + 1) + 1 := by omega
        rw [harith]
        rfl

theorem probeEffs_eq_range (u : List Nat) :
    ∀ n off, probeEffs u off n = (List.range n).map fun i => Eff.storeGet (genId u (off + i)) := by
  intro n
  induction n with
  | zero => intro off; rfl
  | succ n ih =>
      intro off
      rw [List.range_succ_eq_map]
      simp only [probeEffs, List.map_cons, List.map_map]
      congr 1
      rw [ih (off + 1)]
      refine List.map_congr_left fun i _ => ?_
      have harith : off + 1 + i = off + Nat.succ i := by omega
      simp [Function.comp, harith]

theorem probeEffs_zero_eq_range (u : List Nat) (n : Nat) :
    probeEffs u 0 n = (List.range n).map fun i => Eff.storeGet (genId u i) := by
  rw [probeEffs_eq_range]
  exact List.map_congr_left fun i _ => by rw [Nat.zero_add]

theorem validateLongURL_of_scheme (u : List Nat) (h : u.take 8 = schemeBytes) :
    validateLongURL u = none := by
  have hne : u ≠ [] := by
    intro h0
    rw [h0] at h
    exact absurd h (by decide)
  rw [validateLongURL, if_neg hne, if_neg (by simp [h])]

theorem probeEffs_no_create (u : List Nat) :
    ∀ n off, ∀ e ∈ probeEffs u off n, ∀ id w, e ≠ Eff.storeCreate id w := by
  intro n
  induction n with
  | zero => intro off e he; exact absurd he (List.not_mem_nil e)
  | succ n ih =>
      intro off e he id w
      rcases List.mem_cons.mp he with h | h
      · subst h; intro hc; exact Eff.noConfusion hc
      · exact ih (off + 1) e h id w

theorem alistGet_set_self {α β : Type} [DecidableEq α] (l : List (α × β)) (k : α) (v : β) :
    alistGet (alistSet l k v) k = some v := by
  induction l with
  | nil => simp [alistGet, alistSet]
  | cons hd tl ih =>
      by_cases h : hd.1 = k
      · simp [alistSet, h, alistGet]
      · simp only [alistSet, alistGet]
        rw [if_neg h, alistGet, if_neg h, ih]

theorem alistGet_mem {α β : Type} [DecidableEq α] (l : List (α × β)) (k : α) (v : β)
    (h : alistGet l k = some v) : (k, v) ∈ l := by
  induction l with
  | nil => exact absurd h (by simp [alistGet])
  | cons hd tl ih =>
      rw [alistGet] at h
      by_cases hk : hd.1 = k
      · rw [if_pos hk] at h
        have : hd = (k, v) := by
          obtain ⟨a, b⟩ := hd
          cases h
          cases hk
          rfl
        exact this ▸ List.mem_cons_self hd tl
      · rw [if_neg hk] at h
        exact List.mem_cons_of_mem hd (ih h)

theorem alistSet_mem {α β : Type} [DecidableEq α] (l : List (α × β)) (k : α) (v : β) :
    ∀ e ∈ alistSet l k v, e ∈ l ∨ e = (k, v) := by
  induction l with
  | nil => intro e he; simp [alistSet] at he; exact Or.inr he
  | cons hd tl ih =>
      intro e he
      rw [alistSet] at he
      by_cases hk : hd.1 = k
      · rw [if_pos hk] at he
        rcases List.mem_cons.mp he with h | h
        · exact Or.inr h
        · exact Or.inl (List.mem_cons_of_mem hd h)
      · rw [if_neg hk] at he
        rcases List.mem_cons.mp he with h | h
        · exact Or.inl (h ▸ List.mem_cons_self hd tl)
        · rcases ih e h with h' | h'
          · exact Or.inl (List.mem_cons_of_mem hd h')
          · exact Or.inr h'

theorem alistGet_delete_self {α β : Type} [DecidableEq α] (l : List (α × β)) (k : α) :
    alistGet (alistDelete l k) k = none := by
  induction l with
  | nil => rfl
  | cons hd tl ih =>
      rw [alistDelete]
      by_cases hk : hd.1 = k
      · rw [if_pos hk]; exact ih
      · rw [if_neg hk, alistGet, if_neg hk]; exact ih

theorem insertVisitor_mem (vs : List String) (k : String) (h : k ∈ vs) :
    insertVisitor vs k = vs := by
  rw [insertVisitor, if_pos h]

theorem insertVisitor_length (vs : List String) (k : String) :
    (insertVisitor vs k).length ≤ vs.length + 1 := by
  rw [insertVisitor]
  by_cases h : k ∈ vs
  · rw [if_pos h]; omega
  · rw [if_neg h]; simp

theorem processRequest_preserves_inv (cs : Collectors) (r : Request) (hinv : CollectorInv cs) :
    CollectorInv (processRequest cs r) := by
  rw [processRequest]
  cases hget : alistGet cs r.shortURLId with
  | none =>
      intro e he
      rcases alistSet_mem cs r.shortURLId _ e he with h | h
      · exact hinv e h
      · subst h; simp
  | some c =>
      intro e he
      rcases alistSet_mem cs r.shortURLId _ e he with h | h
      · exact hinv e h
      · subst h
        have hc : c.visitors.length ≤ c.visits :=
          hinv (r.shortURLId, c) (alistGet_mem cs r.shortURLId c hget)
        have := insertVisitor_length c.visitors r.visitorId
        simp only
        omega

theorem reachable_inv (cs : Collectors) (h : Reachable cs) : CollectorInv cs := by
  induction h with
  | empty => intro e he; exact absurd he (List.not_mem_nil e)
  | step cs r _ ih => exact processRequest_preserves_inv cs r ih
  | flush cs resp _ _ => intro e he; exact absurd he (List.not_mem_nil e)

/-! ### Claim theorems -/

/-- **C1.** For every long URL byte string `u` and retry offset `o`,
`GenerateIdWithOffset u o` returns exactly the identifier obtained by
hashing `u` with 64-bit FNV-1a, adding the quadratic probe
`(o + o·o)/2` (integer division, computed with the `2^64` wraparound of
Go `uint` arithmetic), and taking the six least-significant base-62
digits over the alphabet `0-9 a-z A-Z`; the identifier always has
length 6 and all its characters are in the alphabet.  Determinism is
immediate because the embedding is a pure function of `(u, o)`. -/
theorem C1_generateIdWithOffset_follows_spec (u : List Nat) (o : Nat) :
    GenerateIdWithOffset u o = Except.ok (specGenerate u o) ∧
    (specGenerate u o).length = 6 ∧
    ∀ c ∈ specGenerate u o, c ∈ charset := by
  refine ⟨?_, ?_, ?_⟩
  · rw [specGenerate_eq_genId]
    rfl
  · rw [specGenerate]
    simp
  · intro c hc
    rw [specGenerate] at hc
    obtain ⟨i, _, rfl⟩ := List.mem_map.mp hc
    exact charset_getD_mod_mem _

/-- Witness for C1, at the byte string `[104, 105]` and offset 2. -/
theorem C1_witness :
    GenerateIdWithOffset [104, 105] 2 = Except.ok (specGenerate [104, 105] 2) ∧
    (specGenerate [104, 105] 2).getD 0 ' ' ∈ charset := by
  obtain ⟨h1, _, h3⟩ := C1_generateIdWithOffset_follows_spec [104, 105] 2
  exact ⟨h1, h3 _ (by decide)⟩

/-- **C2.** If some offset `o < maxRetries` yields a candidate already
mapped to the same long URL while every smaller offset yields a
different long URL, then `CreateShortURL` returns the existing candidate
with success, leaves the store unchanged, performs only store lookups
(no store write), and a second call returns exactly the same. -/
theorem C2_createShortURL_idempotent (store : Store) (u : List Nat) (mr o : Nat)
    (hscheme : u.take 8 = schemeBytes) (ho : o < mr)
    (hsame : storeGetLongURL store (genId u o) = some u)
    (hdiff : ∀ i, i < o → ∃ v, storeGetLongURL store (genId u i) = some v ∧ v ≠ u) :
    CreateShortURL store u mr =
      (Except.ok (genId u o), store,
        (List.range (o + 1)).map fun i => Eff.storeGet (genId u i)) ∧
    (∀ e ∈ (CreateShortURL store u mr).2.2, ∀ id w, e ≠ Eff.storeCreate id w) ∧
    CreateShortURL (CreateShortURL store u mr).2.1 u mr = CreateShortURL store u mr := by
  have hne : u ≠ [] := by
    intro h0
    rw [h0] at hscheme
    exact absurd hscheme (by decide)
  have hval := validateLongURL_of_scheme u hscheme
  have hgen : GenerateShortURLId store u mr =
      (genId u o, some Err.alreadyExists, probeEffs u 0 (o + 1)) := by
    rw [GenerateShortURLId, if_neg hne]
    have h := genLoop_found store u o mr 0 (Nat.zero_le o) (by omega) hsame
      fun i _ h2 => hdiff i h2
    simpa using h
  have hmain : CreateShortURL store u mr =
      (Except.ok (genId u o), store, probeEffs u 0 (o + 1)) := by
    simp only [CreateShortURL, hval, hgen]
  refine ⟨?_, ?_, ?_⟩
  · rw [hmain, probeEffs_zero_eq_range]
  · intro e he id w
    rw [hmain] at he
    exact probeEffs_no_create u (o + 1) 0 e he id w
  · rw [hmain]
    exact hmain

/-- Witness for C2: a store that already maps the offset-0 candidate for
`"https://"` to that same URL. -/
theorem C2_witness :
    CreateShortURL [(genId schemeBytes 0, schemeBytes)] schemeBytes 3 =
      (Except.ok (genId schemeBytes 0), [(genId schemeBytes 0, schemeBytes)],
        (List.range 1).map fun i => Eff.storeGet (genId schemeBytes i)) :=
  (C2_createShortURL_idempotent [(genId schemeBytes 0, schemeBytes)] schemeBytes 3 0
    rfl (by decide) (by decide) (fun i hi => absurd hi (Nat.not_lt_zero i))).1

/-- **C3.** `CreateShortURL` probes candidates in the exact order
`offset = 0, 1, …, maxRetries-1`, performing one store lookup per
candidate; when every candidate is mapped to a different long URL it
fails with the generation-exhausted error — an identity distinct from
the invalid-input, not-found and store-failure identities — leaves the
store unchanged and performs no store write. -/
theorem C3_createShortURL_exhausted (store : Store) (u : List Nat) (mr : Nat)
    (hscheme : u.take 8 = schemeBytes)
    (hall : ∀ i, i < mr → ∃ v, storeGetLongURL store (genId u i) = some v ∧ v ≠ u) :
    CreateShortURL store u mr =
      (Except.error Err.generationExhausted, store,
        (List.range mr).map fun i => Eff.storeGet (genId u i)) ∧
    Err.generationExhausted ≠ Err.invalidInput ∧
    Err.generationExhausted ≠ Err.notFound ∧
    Err.generationExhausted ≠ Err.storeFailure ∧
    ∀ e ∈ (CreateShortURL store u mr).2.2, ∀ id w, e ≠ Eff.storeCreate id w := by
  have hne : u ≠ [] := by
    intro h0
    rw [h0] at hscheme
    exact absurd hscheme (by decide)
  have hval := validateLongURL_of_scheme u hscheme
  have hgen : GenerateShortURLId store u mr =
      ([], some Err.generationExhausted, probeEffs u 0 mr) := by
    rw [GenerateShortURLId, if_neg hne]
    exact genLoop_exhausted store u mr 0 fun i _ h2 => hall i (by omega)
  have hmain : CreateShortURL store u mr =
      (Except.error Err.generationExhausted, store, probeEffs u 0 mr) := by
    simp only [CreateShortURL, hval, hgen]
  refine ⟨?_, by decide, by decide, by decide, ?_⟩
  · rw [hmain, probeEffs_zero_eq_range]
  · intro e he id w
    rw [hmain] at he
    exact probeEffs_no_create u mr 0 e he id w

/-- Witness for C3: one allowed retry whose only candidate is mapped to
a different long URL. -/
theorem C3_witness :
    CreateShortURL [(genId schemeBytes 0, [0])] schemeBytes 1 =
      (Except.error Err.generationExhausted, [(genId schemeBytes 0, [0])],
        (List.range 1).map fun i => Eff.storeGet (genId schemeBytes i)) :=
  (C3_createShortURL_exhausted [(genId schemeBytes 0, [0])] schemeBytes 1 rfl
    (fun i hi => by
      interval_cases i
      exact ⟨[0], by decide, by decide⟩)).1

/-- **C4.** Processing a visit event lazily creates the collector with
one visit and one visitor on the first event for an id, otherwise
increments the visit count and set-inserts the visitor key (duplicates
do not grow the set); consequently the events
`(A, host1), (A, host2), (A, host1), (B, host2)` from an empty map flush
exactly `A ↦ (visits 3, uniqueVisits 2)` and `B ↦ (visits 1,
uniqueVisits 1)`. -/
theorem C4_processRequest_aggregates :
    (∀ (cs : Collectors) (r : Request), alistGet cs r.shortURLId = none →
      alistGet (processRequest cs r) r.shortURLId = some ⟨r.shortURLId, 1, [r.visitorId]⟩) ∧
    (∀ (cs : Collectors) (r : Request) (c : Collector), alistGet cs r.shortURLId = some c →
      alistGet (processRequest cs r) r.shortURLId =
        some { c with visits := c.visits + 1,
                      visitors := insertVisitor c.visitors r.visitorId }) ∧
    (∀ (vs : List String) (k : String), k ∈ vs → insertVisitor vs k = vs) ∧
    ((flushMetrics (runEvents []
          [⟨"A", "host1"⟩, ⟨"A", "host2"⟩, ⟨"A", "host1"⟩, ⟨"B", "host2"⟩])
        (Except.ok ())).2.1 =
      runEvents [] [⟨"A", "host1"⟩, ⟨"A", "host2"⟩, ⟨"A", "host1"⟩, ⟨"B", "host2"⟩] ∧
      ∃ ca cb,
        alistGet (runEvents []
          [⟨"A", "host1"⟩, ⟨"A", "host2"⟩, ⟨"A", "host1"⟩, ⟨"B", "host2"⟩]) "A" = some ca ∧
        ca.visits = 3 ∧ ca.uniqueVisits = 2 ∧
        alistGet (runEvents []
          [⟨"A", "host1"⟩, ⟨"A", "host2"⟩, ⟨"A", "host1"⟩, ⟨"B", "host2"⟩]) "B" = some cb ∧
        cb.visits = 1 ∧ cb.uniqueVisits = 1 ∧
        (runEvents []
          [⟨"A", "host1"⟩, ⟨"A", "host2"⟩, ⟨"A", "host1"⟩, ⟨"B", "host2"⟩]).length = 2) := by
  refine ⟨?_, ?_, insertVisitor_mem, rfl, ?_⟩
  · intro cs r h
    rw [processRequest, h]
    exact alistGet_set_self cs r.shortURLId _
  · intro cs r c h
    rw [processRequest, h]
    exact alistGet_set_self cs r.shortURLId _
  · exact ⟨⟨"A", 3, ["host1", "host2"]⟩, ⟨"B", 1, ["host2"]⟩,
      by decide, rfl, rfl, by decide, rfl, rfl, by decide⟩

/-- Witness for C4: first event for an id creates its collector. -/
theorem C4_witness :
    alistGet (processRequest [] ⟨"X", "v"⟩) "X" = some ⟨"X", 1, ["v"]⟩ :=
  C4_processRequest_aggregates.1 [] ⟨"X", "v"⟩ rfl

/-- **C5.** Every flush submits the whole current collectors map in one
batched store call and unconditionally clears the map; the store
outcome is only logged, never propagated, so the next accumulation
window always starts empty. -/
theorem C5_flushMetrics_always_clears (cs : Collectors) (resp : Except String Unit) :
    (flushMetrics cs resp).2.1 = cs ∧
    (flushMetrics cs resp).1 = [] ∧
    ((flushMetrics cs resp).2.2 = none ↔ resp = Except.ok ()) := by
  refine ⟨rfl, rfl, ?_⟩
  cases resp with
  | ok u => cases u; simp [flushMetrics]
  | error e => simp [flushMetrics]

/-- **C6.** Every collectors-map state reachable from the empty map by
processed events and flushes satisfies `visits ≥ |visitors|` for each
collector, and both processing an event and flushing preserve this
invariant. -/
theorem C6_visits_dominate_visitors :
    (∀ cs, Reachable cs → CollectorInv cs) ∧
    (∀ (cs : Collectors) (r : Request), CollectorInv cs → CollectorInv (processRequest cs r)) ∧
    (∀ (cs : Collectors) (resp : Except String Unit), CollectorInv cs →
      CollectorInv (flushMetrics cs resp).1) := by
  refine ⟨reachable_inv, processRequest_preserves_inv, ?_⟩
  intro cs resp _ e he
  exact absurd he (List.not_mem_nil e)

/-- Witness for C6: the invariant at a concrete reachable state. -/
theorem C6_witness : CollectorInv (processRequest [] ⟨"A", "h"⟩) :=
  C6_visits_dominate_visitors.1 _ (Reachable.step [] ⟨"A", "h"⟩ Reachable.empty)

/-- **C7.** `GetLongURL` never fails with a cache-failure identity; a
cache error behaves exactly like a cache miss (and the store is
queried); on a cache non-hit, a store miss yields the not-found error
and a store hit yields the stored long URL with no error. -/
theorem C7_getLongURL_cache_degrades (id : List Char) (cresp sresp : LookupResp)
    (msg : String) :
    (GetLongURL id cresp sresp).1 ≠ Except.error Err.cacheFailure ∧
    GetLongURL id (LookupResp.failure msg) sresp = GetLongURL id LookupResp.missing sresp ∧
    Eff.storeGet id ∈ (GetLongURL id (LookupResp.failure msg) sresp).2 ∧
    ((∀ w, cresp ≠ LookupResp.found w) →
      (GetLongURL id cresp LookupResp.missing).1 = Except.error Err.notFound ∧
      ∀ w, (GetLongURL id cresp (LookupResp.found w)).1 = Except.ok w) := by
  refine ⟨?_, ?_, ?_, ?_⟩
  · cases cresp <;> cases sresp <;> simp [GetLongURL]
  · cases sresp <;> rfl
  · cases sresp <;> simp [GetLongURL]
  · intro hc
    cases cresp with
    | found w => exact absurd rfl (hc w)
    | missing => exact ⟨rfl, fun w => rfl⟩
    | failure m => exact ⟨rfl, fun w => rfl⟩

/-- Witness for C7: a cache miss followed by a store miss is the
not-found error. -/
theorem C7_witness :
    (GetLongURL ['x'] LookupResp.missing LookupResp.missing).1 = Except.error Err.notFound :=
  ((C7_getLongURL_cache_degrades ['x'] LookupResp.missing LookupResp.missing "boom").2.2.2
    fun _ h => LookupResp.noConfusion h).1

/-- **C8.** `DeleteShortURL` deletes from the store first and from the
cache only afterwards; a store-delete failure aborts with an error
before any cache delete, leaving store and cache untouched; a
cache-delete failure after a successful store delete still reports an
error although the store row is already gone. -/
theorem C8_deleteShortURL_order (store : Store) (cache : CacheMap) (id : List Char)
    (storeOk cacheOk : Bool) (hid : id ≠ []) :
    (storeOk = false →
      DeleteShortURL store cache id storeOk cacheOk =
        (Except.error Err.storeFailure, store, cache, [Eff.storeDelete id])) ∧
    (storeOk = true → cacheOk = false →
      DeleteShortURL store cache id storeOk cacheOk =
        (Except.error Err.cacheFailure, alistDelete store id, cache,
          [Eff.storeDelete id, Eff.cacheDelete id]) ∧
      storeGetLongURL (alistDelete store id) id = none) ∧
    (DeleteShortURL store cache id storeOk cacheOk).2.2.2.head? =
      some (Eff.storeDelete id) := by
  refine ⟨?_, ?_, ?_⟩
  · intro h
    subst h
    simp [DeleteShortURL, hid]
  · intro h1 h2
    subst h1
    subst h2
    exact ⟨by simp [DeleteShortURL, hid], alistGet_delete_self store id⟩
  · cases storeOk <;> cases cacheOk <;> simp [DeleteShortURL, hid]

/-- Witness for C8: a failing store delete leaves everything in place. -/
theorem C8_witness :
    DeleteShortURL [(['a'], [1])] [] ['a'] false true =
      (Except.error Err.storeFailure, [(['a'], [1])], [], [Eff.storeDelete ['a']]) :=
  (C8_deleteShortURL_order [(['a'], [1])] [] ['a'] false true (by decide)).1 rfl

/-- **C9.** For every input that is empty or lacks the `https://`
scheme, `CreateShortURL` fails with the invalid-input error, performs no
store or cache operation, and leaves the store unchanged. -/
theorem C9_createShortURL_validates_first (store : Store) (u : List Nat) (mr : Nat)
    (h : u = [] ∨ u.take 8 ≠ schemeBytes) :
    CreateShortURL store u mr = (Except.error Err.invalidInput, store, []) := by
  obtain ⟨msg, hm⟩ : ∃ msg, validateLongURL u = some msg := by
    rcases h with h | h
    · exact ⟨_, by rw [validateLongURL, if_pos h]⟩
    · by_cases h0 : u = []
      · exact ⟨_, by rw [validateLongURL, if_pos h0]⟩
      · exact ⟨_, by rw [validateLongURL, if_neg h0, if_pos h]⟩
  simp only [CreateShortURL, hm]

/-- Witness for C9: a non-https byte string is rejected with no
collaborator operation. -/
theorem C9_witness :
    CreateShortURL [] [104] 5 = (Except.error Err.invalidInput, [], []) :=
  C9_createShortURL_validates_first [] [104] 5 (Or.inr (by decide))

/-- **C10.** `GenerateIdWithOffset` always returns an identifier: the
FNV-1a `Write` step cannot fail, so the error branch is unreachable for
every input string (the empty string included) and every offset. -/
theorem C10_generateIdWithOffset_total (u : List Nat) (o : Nat) :
    ∃ id, GenerateIdWithOffset u o = Except.ok id :=
  ⟨genId u o, rfl⟩

end ShortURL
